import Mathlib

/-!
Verification development for the WordpressAutoPost pipeline.

Shallow embedding of the file-to-post processing pipeline with idempotent
state tracking:
  * `database.py` — the SQLite ledger (`init_db`, `track_new_file`,
    `mark_as_published`, `is_file_processed`, `get_pending_posts`);
  * `main.py` — `Config` and `format_date_for_wp`;
  * `wordpress_api.py` — `create_post` / `_post`;
  * `exe_io_api.py` — `shorten_url`;
  * `openrouter_api.py` — `get_brief_description`;
  * `runner.py` — `run_once` and `process_file`.

Timestamps are modelled as natural numbers (the ledger stores ISO-8601
strings, whose lexicographic order coincides with chronological order, and
SQLite sorts NULL before any value in ascending order, so `Option Nat`
with `none` ordered first is a faithful model of the ordering).  Remote
HTTP collaborators are modelled as oracle arguments: a value of type
`Except PyErr (Nat × ...)` standing for either a raised exception or a
`(status code, body)` response.  Python exceptions are values of `PyErr`;
a function that catches exceptions internally is total, a function that
can propagate one returns `Except PyErr _`.
-/

namespace WordpressAutoPost

/-- A Python exception value (the embedding only distinguishes
`AttributeError`, which matters for `runner.process_file`, from the rest). -/
inductive PyErr where
  | attributeError (attr : String)
  | other (msg : String)
deriving DecidableEq, Repr

/-! ## database.py — the ledger

One row of the `scheduled_posts` table.  `published` is stored as the
integers 0/1 in SQLite and modelled as `Bool`; `published_at` and
`scheduled_date` are nullable timestamps.  The store itself is
`Option (List LedgerEntry)`: `none` models the storage-error state (no
table / unreachable database file), in which every operation hits the
`except` branch of its Python counterpart — errors are logged and
swallowed, queries return their documented fallback. -/
structure LedgerEntry where
  file_id : String
  file_name : String
  scheduled_date : Option Nat
  published : Bool
  published_at : Option Nat
deriving DecidableEq, Repr

/-- The database state: `none` = uninitialized / storage error. -/
abbrev Db := Option (List LedgerEntry)

/-- First row whose `file_id` matches (SQLite `WHERE file_id = ?` with
`fetchone`). -/
def findEntry (id : String) : List LedgerEntry → Option LedgerEntry
  | [] => none
  | e :: rest => if e.file_id = id then some e else findEntry id rest

/-- `database.init_db`: `CREATE TABLE IF NOT EXISTS` — creates the empty
table when the store is uninitialized, otherwise leaves it unchanged. -/
def init_db : Db → Db
  | none => some []
  | some s => some s

/-- `database.track_new_file`: `INSERT OR IGNORE` of
`(file_id, file_name, scheduled_date, published=0)`; `published_at` is not
in the column list, so it gets its NULL default.  A row whose `file_id`
already exists is left untouched.  On storage error the exception is
logged and swallowed (state unchanged). -/
def track_new_file (id name : String) (sd : Option Nat) : Db → Db
  | none => none
  | some s =>
    if (findEntry id s).isSome then some s
    else some (s ++ [⟨id, name, sd, false, none⟩])

/-- Effect of the `UPDATE ... WHERE file_id = ?` of `mark_as_published` on
one row. -/
def markRow (id : String) (now : Nat) (e : LedgerEntry) : LedgerEntry :=
  if e.file_id = id then { e with published := true, published_at := some now } else e

/-- `database.mark_as_published`: `UPDATE scheduled_posts SET published=1,
published_at=CURRENT_TIMESTAMP WHERE file_id = ?`.  No row is created when
the id is absent.  `now` is `CURRENT_TIMESTAMP`. -/
def mark_as_published (id : String) (now : Nat) : Db → Db
  | none => none
  | some s => some (s.map (markRow id now))

/-- `database.is_file_processed`: `SELECT published ... WHERE file_id = ?`,
`fetchone`; `None` row ⇒ `False`, else `row[0] == 1`.  Errors are logged
and return `False`. -/
def is_file_processed (id : String) : Db → Bool
  | none => false
  | some s =>
    match findEntry id s with
    | none => false
    | some e => e.published

/-- Ascending SQLite order on a nullable timestamp column: NULL sorts
before every value in `ASC` order. -/
def dateLe : Option Nat → Option Nat → Prop
  | none, _ => True
  | some _, none => False
  | some a, some b => a ≤ b

instance : DecidableRel dateLe := fun a b => by
  cases a <;> cases b <;> simp [dateLe] <;> infer_instance

instance : IsTotal (Option Nat) dateLe where
  total a b := by cases a <;> cases b <;> simp [dateLe] <;> exact Nat.le_total _ _

instance : IsTrans (Option Nat) dateLe where
  trans a b c := by
    cases a <;> cases b <;> cases c <;> simp [dateLe]
    exact Nat.le_trans

/-- Row order used by `get_pending_posts` (`ORDER BY scheduled_date ASC`). -/
def entryLe (a b : LedgerEntry) : Prop := dateLe a.scheduled_date b.scheduled_date

instance : DecidableRel entryLe := fun a b => by
  unfold entryLe; infer_instance

instance : IsTotal LedgerEntry entryLe where
  total a b := IsTotal.total (r := dateLe) _ _

instance : IsTrans LedgerEntry entryLe where
  trans _ _ _ h h2 := IsTrans.trans (r := dateLe) _ _ _ h h2

/-- Projection returned by `get_pending_posts`:
`SELECT file_id, file_name, scheduled_date`. -/
def entryRow (e : LedgerEntry) : String × String × Option Nat :=
  (e.file_id, e.file_name, e.scheduled_date)

/-- `database.get_pending_posts`: rows with `published = 0`, ordered by
`scheduled_date ASC` (NULL first); `[]` on storage error. -/
def get_pending_posts : Db → List (String × String × Option Nat)
  | none => []
  | some s =>
    (((s.filter fun e => !e.published).insertionSort entryLe).map entryRow)

/-! ### Ledger operation sequences

The three mutating entry points of `database.py`, as an inductive type of
operations, so that reachability of a ledger state and temporal statements
("until", "afterward, permanently") can be expressed over operation
histories. -/
inductive Op where
  | init : Op
  | track (id name : String) (sd : Option Nat) : Op
  | mark (id : String) (now : Nat) : Op
deriving DecidableEq, Repr

/-- Apply one ledger operation. -/
def applyOp : Op → Db → Db
  | .init, db => init_db db
  | .track id name sd, db => track_new_file id name sd db
  | .mark id now, db => mark_as_published id now db

/-- Run a sequence of ledger operations, oldest first. -/
def runOps : List Op → Db → Db
  | [], db => db
  | op :: rest, db => runOps rest (applyOp op db)

/-! ## main.py — configuration and date helper

`main.Config` is a class whose attributes are exactly the ones listed
below (read from the environment at startup).  Note that it defines **no**
`DEFAULT_BOARDVIEW_IMAGE_URL` and **no** `DEFAULT_SCHEMATIC_IMAGE_URL`
attribute, although `runner.process_file` reads both. -/
structure MainConfig where
  WP_SITE_URL : String
  WP_USER : String
  WP_PASSWORD : String
  WP_API_BASE : String
  GOOGLE_SERVICE_ACCOUNT_JSON_PATH : Option String
  GOOGLE_DRIVE_FOLDER_ID : Option String
  OPENROUTER_API_KEY : Option String
  EXE_IO_API_KEY : Option String
  HTTP_TIMEOUT_SECONDS : Nat
  DRIVE_PAGE_SIZE : Nat
  DEFAULT_SCHEDULE_OFFSET_MINUTES : Nat
  DATABASE_PATH : String
  BRAND_IMAGES_JSON : String
deriving Repr

/-- `main.format_date_for_wp`: returns the payload fields it contributes —
`date_gmt` (the timestamp, already UTC in this model) always, and
`status = "future"` exactly when the date is strictly later than the
current time (`dt_utc > datetime.now(timezone.utc)`). -/
def format_date_for_wp (dt now : Nat) : Option Nat × Option String :=
  (some dt, if now < dt then some "future" else none)

/-! ## wordpress_api.py — the Publisher -/

/-- JSON body submitted to `POST /posts`.  A field that Python's
`create_post` leaves out of the dict is `none` here (`if categories:` /
`if tags:` / `if featured_media:` are falsy for `None`, `[]` and `0`). -/
structure PostData where
  title : String
  content : String
  status : String
  categories : Option (List Nat)
  tags : Option (List Nat)
  featured_media : Option Nat
  date_gmt : Option Nat
deriving DecidableEq, Repr

/-- The `post_data` dict built by `wordpress_api.create_post` before it is
handed to `_post`: base fields, the truthiness-guarded optional fields, and
`post_data.update(format_date_for_wp(publish_date))` when a publish date
is given (which overwrites `status` only when the helper returned one). -/
def buildPostData (title content : String) (categories tags : Option (List Nat))
    (featured_media : Option Nat) (publish_date : Option Nat) (status : String)
    (now : Nat) : PostData :=
  let base : PostData :=
    { title := title, content := content, status := status
      categories := match categories with
        | some l => if l.isEmpty then none else some l
        | none => none
      tags := match tags with
        | some l => if l.isEmpty then none else some l
        | none => none
      featured_media := match featured_media with
        | some m => if m = 0 then none else some m
        | none => none
      date_gmt := none }
  match publish_date with
  | none => base
  | some d =>
    let upd := format_date_for_wp d now
    { base with
      date_gmt := upd.1
      status := match upd.2 with | some s2 => s2 | none => base.status }

/-- `wordpress_api._post`: empty `WP_API_BASE` ⇒ `None`; a raised network
exception ⇒ caught, `None`; a response with status 200/201 ⇒ its JSON
body; any other status ⇒ `None`.  `remote` is the oracle standing for
`requests.post`. -/
def wpPost (apiBase : String) (remote : PostData → Except PyErr (Nat × String))
    (d : PostData) : Option String :=
  if apiBase = "" then none
  else
    match remote d with
    | .error _ => none
    | .ok (code, body) => if code = 200 ∨ code = 201 then some body else none

/-- `wordpress_api.create_post`: builds `post_data` and submits it via
`_post`; total — returns `none` on every remote failure instead of
raising. -/
def create_post (apiBase : String) (remote : PostData → Except PyErr (Nat × String))
    (title content : String) (categories tags : Option (List Nat))
    (featured_media : Option Nat) (publish_date : Option Nat) (status : String)
    (now : Nat) : Option String :=
  wpPost apiBase remote
    (buildPostData title content categories tags featured_media publish_date status now)

/-! ## exe_io_api.py and openrouter_api.py — enrichment collaborators -/

/-- Python `a or b` on an optional string (`None` and `""` are falsy). -/
def orStr (a : Option String) (b : String) : String :=
  match a with
  | some s => if s = "" then b else s
  | none => b

/-- `exe_io_api.shorten_url`: missing/empty API key ⇒ original URL; raised
exception ⇒ original URL; non-200 ⇒ original URL; otherwise
`data.get("shortenedUrl") or data.get("short") or ""`, falling back to the
original URL when that is empty.  The oracle carries
`(status, shortenedUrl field, short field)`. -/
def shorten_url (apiKey : Option String)
    (resp : Except PyErr (Nat × Option String × Option String))
    (long_url : String) : String :=
  if apiKey.getD "" = "" then long_url
  else
    match resp with
    | .error _ => long_url
    | .ok (code, su, sh) =>
      if code ≠ 200 then long_url
      else
        let short := orStr su (orStr sh "")
        if short = "" then long_url else short

/-- `openrouter_api.get_brief_description`: missing/empty API key ⇒ `""`;
raised exception ⇒ `""`; non-200 ⇒ `""`; otherwise the stripped message
content (`""` when the content is falsy).  The oracle carries
`(status, message content field)`. -/
def get_brief_description (apiKey : Option String)
    (resp : Except PyErr (Nat × Option String)) (file_name : String) : String :=
  if apiKey.getD "" = "" then ""
  else
    match resp with
    | .error _ => ""
    | .ok (code, content) =>
      if code ≠ 200 then ""
      else
        match content with
        | none => ""
        | some c => if c = "" then "" else c.trim

/-! ## runner.py — the pipeline orchestrator -/

/-- `needle` is a leading subword of `hay` (character lists). -/
def startsWithL : List Char → List Char → Bool
  | _, [] => true
  | [], _ :: _ => false
  | c :: cs, n :: ns => (c = n) && startsWithL cs ns

/-- Substring test on character lists, Python `needle in hay`. -/
def hasSub (needle : List Char) : List Char → Bool
  | [] => needle.isEmpty
  | c :: t => startsWithL (c :: t) needle || hasSub needle t

/-- Python `needle in hay` on strings. -/
def strContains (hay needle : String) : Bool :=
  hasSub needle.toList hay.toList

/-- Python `str.lower()` (character-wise lowering; the file names handled
by this program are ASCII). -/
def strLower (s : String) : String :=
  ⟨s.data.map Char.toLower⟩

/-- Calls made by `runner.process_file`, in order. -/
inductive PEvent where
  | shortenCall (url : String)
  | descCall (file_name : String)
  | metaCall (file_id : String)
  | imageCall (url : String)
  | publishCall (d : PostData)
deriving DecidableEq, Repr

/-- `runner.process_file`.

The first four steps are embedded from the source: the download link is
built from the file id, then `shorten_url`, `get_brief_description` and
`get_file_metadata` are called (each total, with documented fallbacks),
and the boardview classification is a case-insensitive substring match of
`"boardview"` in the file name.

The next source line is
`image_url = f"{Config.WP_SITE_URL}/{Config.DEFAULT_BOARDVIEW_IMAGE_URL}"`
(resp. `Config.DEFAULT_SCHEMATIC_IMAGE_URL`).  `main.Config` (see
`MainConfig`) defines neither attribute, so evaluating this f-string
raises `AttributeError` unconditionally; `set_featured_image_from_url`,
`template.render` and `create_post` below it are unreachable.  The
embedding therefore throws at this point, after recording the calls made
so far.  Returns the trace of collaborator calls together with the
outcome (`Bool` = published successfully) or the propagated exception. -/
def process_file (cfg : MainConfig)
    (shortResp : Except PyErr (Nat × Option String × Option String))
    (descResp : Except PyErr (Nat × Option String))
    (file_id file_name : String) (scheduled_date : Option Nat) :
    List PEvent × Except PyErr Bool :=
  let file_link := "https://drive.google.com/uc?id=" ++ file_id ++ "&export=download"
  let _short_link := shorten_url cfg.EXE_IO_API_KEY shortResp file_link
  let _description := get_brief_description cfg.OPENROUTER_API_KEY descResp file_name
  let is_boardview := strContains (strLower file_name) "boardview"
  let _download_label : String :=
    if is_boardview then "Download Boardview" else "Download Schematic"
  let missing : String :=
    if is_boardview then "DEFAULT_BOARDVIEW_IMAGE_URL" else "DEFAULT_SCHEMATIC_IMAGE_URL"
  let _ := scheduled_date
  ([.shortenCall file_link, .descCall file_name, .metaCall file_id],
   .error (.attributeError missing))

/-- A file descriptor as returned by the Source Lister
(`{id, name, mimeType, size}`; only `id` and `name` are used by the
runner). -/
structure DriveFile where
  id : String
  name : String
deriving DecidableEq, Repr

/-- Observable per-file events of one `run_once` pass. -/
inductive Event where
  | templateErrorLog
  | listFiles
  | skipped (id : String)
  | procStart (id : String) (sd : Option Nat)
  | trackW (id name : String) (sd : Option Nat)
  | markW (id : String)
  | fileError (name : String)
deriving DecidableEq, Repr

/-- The per-file body of `run_once`, abstracted over the behaviour of
`process_file` (`proc id name scheduled_date`, which may raise — any
behaviour of the enrichment and publishing collaborators).  `procStart`
marks the `process_file` invocation (all enrichment and Publisher calls
happen inside it); `trackW`/`markW` are the ledger writes; an exception
from the body is caught, logged (`fileError`) and the loop continues with
the next file. -/
def runLoop (proc : String → String → Option Nat → Except PyErr Bool)
    (schedule : Bool) (now offMin : Nat) : List DriveFile → Db → Db × List Event
  | [], db => (db, [])
  | f :: rest, db =>
    if is_file_processed f.id db then
      let r := runLoop proc schedule now offMin rest db
      (r.1, .skipped f.id :: r.2)
    else
      let sd : Option Nat := if schedule then some (now + offMin * 60) else none
      match proc f.id f.name sd with
      | .error _ =>
        let r := runLoop proc schedule now offMin rest db
        (r.1, .procStart f.id sd :: .fileError f.name :: r.2)
      | .ok false =>
        let r := runLoop proc schedule now offMin rest db
        (r.1, .procStart f.id sd :: r.2)
      | .ok true =>
        let trackDate : Option Nat :=
          if schedule then some (now + offMin * 60) else some now
        let db1 := track_new_file f.id f.name trackDate db
        let db2 := mark_as_published f.id now db1
        let r := runLoop proc schedule now offMin rest db2
        (r.1, .procStart f.id sd :: .trackW f.id f.name trackDate :: .markW f.id :: r.2)

/-- `runner.run_once`: `init_db()` first; then the template file is
loaded — on failure the error is logged and the function returns at once
(no listing, no per-file work).  Then the Source Lister is consulted
(`listFiles`); an empty result logs a warning and returns.  Otherwise each
listed file goes through `runLoop`.  `tmpl` is the outcome of opening and
reading the template file; `files` is the Source Lister response. -/
def run_once (db : Db) (tmpl : Except String Unit) (files : List DriveFile)
    (schedule : Bool) (now offMin : Nat)
    (proc : String → String → Option Nat → Except PyErr Bool) : Db × List Event :=
  let db0 := init_db db
  match tmpl with
  | .error _ => (db0, [.templateErrorLog])
  | .ok _ =>
    if files.isEmpty then (db0, [.listFiles])
    else
      let r := runLoop proc schedule now offMin files db0
      (r.1, .listFiles :: r.2)

/-- Ascending order on the rows returned by `get_pending_posts`
(by their `scheduled_date` component, NULL first). -/
def rowLe (a b : String × String × Option Nat) : Prop := dateLe a.2.2 b.2.2

/-- All rows of the store have pairwise distinct `file_id` (the PRIMARY
KEY constraint); vacuous for the error state. -/
def IdsNodup : Db → Prop
  | none => True
  | some s => (s.map fun e => e.file_id).Nodup

/-- Every row has `published_at` non-null exactly when `published` is
set; vacuous for the error state. -/
def PubAtOk : Db → Prop
  | none => True
  | some s => ∀ e ∈ s, e.published_at.isSome = e.published

/-! ## Basic lemmas about the ledger -/

theorem findEntry_eq_some_id {id : String} {s : List LedgerEntry} {e : LedgerEntry}
    (h : findEntry id s = some e) : e.file_id = id := by
  induction s with
  | nil => simp [findEntry] at h
  | cons a t ih =>
    by_cases ha : a.file_id = id
    · simp [findEntry, ha] at h
      subst h
      exact ha
    · simp [findEntry, ha] at h
      exact ih h

theorem findEntry_append (id : String) (s l : List LedgerEntry) :
    findEntry id (s ++ l) =
      match findEntry id s with
      | some e => some e
      | none => findEntry id l := by
  induction s with
  | nil => simp [findEntry]
  | cons a t ih =>
    by_cases ha : a.file_id = id <;> simp [findEntry, ha, ih]

theorem markRow_file_id (i : String) (t : Nat) (e : LedgerEntry) :
    (markRow i t e).file_id = e.file_id := by
  unfold markRow
  split <;> rfl

theorem findEntry_map_markRow (j i : String) (t : Nat) (s : List LedgerEntry) :
    findEntry j (s.map (markRow i t)) = (findEntry j s).map (markRow i t) := by
  induction s with
  | nil => rfl
  | cons a l ih =>
    by_cases ha : a.file_id = j
    · simp [findEntry, markRow_file_id, ha]
    · simp [findEntry, markRow_file_id, ha, ih]

theorem findEntry_eq_none_iff (id : String) (s : List LedgerEntry) :
    findEntry id s = none ↔ ∀ e ∈ s, e.file_id ≠ id := by
  induction s with
  | nil => simp [findEntry]
  | cons a t ih =>
    by_cases ha : a.file_id = id <;> simp [findEntry, ha, ih]

theorem findEntry_of_mem_nodup {s : List LedgerEntry} {e : LedgerEntry}
    (hn : (s.map fun x => x.file_id).Nodup) (he : e ∈ s) :
    findEntry e.file_id s = some e := by
  induction s with
  | nil => simp at he
  | cons a t ih =>
    simp only [List.map_cons, List.nodup_cons] at hn
    rcases List.mem_cons.mp he with rfl | ht
    · simp [findEntry]
    · have hne : a.file_id ≠ e.file_id := by
        intro hEq
        exact hn.1 (hEq ▸ List.mem_map_of_mem (fun x => x.file_id) ht)
      simp [findEntry, hne, ih hn.2 ht]

theorem is_file_processed_some (id : String) (s : List LedgerEntry) :
    is_file_processed id (some s) = ((findEntry id s).map fun e => e.published).getD false := by
  cases h : findEntry id s <;> simp [is_file_processed, h]

theorem is_file_processed_init (id : String) (db : Db) :
    is_file_processed id (init_db db) = is_file_processed id db := by
  cases db <;> rfl

theorem is_file_processed_track (id i n : String) (sd : Option Nat) (db : Db) :
    is_file_processed id (track_new_file i n sd db) = is_file_processed id db := by
  cases db with
  | none => rfl
  | some s =>
    unfold track_new_file
    by_cases h : (findEntry i s).isSome
    · simp [h]
    · simp only [h, if_false, Bool.false_eq_true, is_file_processed_some, findEntry_append]
      cases hf : findEntry id s with
      | some e => simp
      | none =>
        by_cases hid : i = id
        · subst hid
          simp [findEntry]
        · simp [findEntry, hid]

theorem is_file_processed_mark_ne (id i : String) (t : Nat) (db : Db) (h : i ≠ id) :
    is_file_processed id (mark_as_published i t db) = is_file_processed id db := by
  cases db with
  | none => rfl
  | some s =>
    simp only [mark_as_published, is_file_processed_some, findEntry_map_markRow]
    cases hf : findEntry id s with
    | none => simp
    | some e =>
      have hid : e.file_id = id := findEntry_eq_some_id hf
      have : e.file_id ≠ i := by
        rw [hid]
        exact fun hc => h hc.symm
      simp [markRow, this]

theorem is_file_processed_mark_self (id : String) (t : Nat) (s : List LedgerEntry) :
    is_file_processed id (mark_as_published id t (some s)) = (findEntry id s).isSome := by
  simp only [mark_as_published, is_file_processed_some, findEntry_map_markRow]
  cases hf : findEntry id s with
  | none => simp
  | some e =>
    have hid : e.file_id = id := findEntry_eq_some_id hf
    simp [markRow, hid]

theorem isSome_of_processed {id : String} {s : List LedgerEntry}
    (h : is_file_processed id (some s) = true) : (findEntry id s).isSome := by
  rw [is_file_processed_some] at h
  cases hf : findEntry id s
  · rw [hf] at h
    simp at h
  · simp

theorem is_file_processed_applyOp_mono (id : String) (op : Op) (db : Db)
    (h : is_file_processed id db = true) : is_file_processed id (applyOp op db) = true := by
  cases op with
  | init =>
    rw [applyOp, is_file_processed_init]
    exact h
  | track i n sd =>
    rw [applyOp, is_file_processed_track]
    exact h
  | mark i t =>
    by_cases hi : i = id
    · subst hi
      cases db with
      | none => simp [is_file_processed] at h
      | some s =>
        rw [applyOp, is_file_processed_mark_self]
        exact isSome_of_processed h
    · rw [applyOp, is_file_processed_mark_ne id i t db hi]
      exact h

theorem is_file_processed_runOps_mono (id : String) (ops : List Op) (db : Db)
    (h : is_file_processed id db = true) : is_file_processed id (runOps ops db) = true := by
  induction ops generalizing db with
  | nil => exact h
  | cons op rest ih => exact ih _ (is_file_processed_applyOp_mono id op db h)

theorem is_file_processed_applyOp_false (id : String) (op : Op) (db : Db)
    (hop : ∀ t, op ≠ Op.mark id t) (h : is_file_processed id db = false) :
    is_file_processed id (applyOp op db) = false := by
  cases op with
  | init =>
    rw [applyOp, is_file_processed_init]
    exact h
  | track i n sd =>
    rw [applyOp, is_file_processed_track]
    exact h
  | mark i t =>
    have hi : i ≠ id := by
      intro hEq
      subst hEq
      exact (hop t) rfl
    rw [applyOp, is_file_processed_mark_ne id i t db hi]
    exact h

theorem is_file_processed_runOps_false (id : String) (ops : List Op) (db : Db)
    (hops : ∀ t, Op.mark id t ∉ ops) (h : is_file_processed id db = false) :
    is_file_processed id (runOps ops db) = false := by
  induction ops generalizing db with
  | nil => exact h
  | cons op rest ih =>
    have hop : ∀ t, op ≠ Op.mark id t := by
      intro t hEq
      exact hops t (hEq ▸ List.mem_cons_self op rest)
    exact ih _ (fun t ht => hops t (List.mem_cons_of_mem op ht))
      (is_file_processed_applyOp_false id op db hop h)

theorem map_file_id_map_markRow (i : String) (t : Nat) (s : List LedgerEntry) :
    ((s.map (markRow i t)).map fun e => e.file_id) = s.map fun e => e.file_id := by
  induction s with
  | nil => rfl
  | cons a l ih => simp [markRow_file_id, ih]

theorem IdsNodup_applyOp (op : Op) (db : Db) (h : IdsNodup db) :
    IdsNodup (applyOp op db) := by
  cases op with
  | init =>
    cases db with
    | none => simp [applyOp, init_db, IdsNodup]
    | some s => exact h
  | track i n sd =>
    cases db with
    | none => exact h
    | some s =>
      rw [applyOp, track_new_file]
      by_cases hf : (findEntry i s).isSome
      · simp only [hf, if_true]
        exact h
      · have hnone : findEntry i s = none := by
          cases hfe : findEntry i s
          · rfl
          · rw [hfe] at hf
            simp at hf
        have hni : i ∉ s.map fun e => e.file_id := by
          intro hmem
          obtain ⟨e, he, heq⟩ := List.mem_map.mp hmem
          exact ((findEntry_eq_none_iff i s).mp hnone e he) heq
        simp only [hf, if_false, IdsNodup, List.map_append, List.map_cons, List.map_nil,
          Bool.false_eq_true]
        rw [List.nodup_append]
        refine ⟨h, List.nodup_singleton i, ?_⟩
        intro a ha hb
        simp at hb
        subst hb
        exact hni ha
  | mark i t =>
    cases db with
    | none => exact h
    | some s =>
      rw [applyOp, mark_as_published]
      show ((s.map (markRow i t)).map fun e => e.file_id).Nodup
      rw [map_file_id_map_markRow]
      exact h

theorem IdsNodup_runOps (ops : List Op) (db : Db) (h : IdsNodup db) :
    IdsNodup (runOps ops db) := by
  induction ops generalizing db with
  | nil => exact h
  | cons op rest ih => exact ih _ (IdsNodup_applyOp op db h)

theorem PubAtOk_applyOp (op : Op) (db : Db) (h : PubAtOk db) :
    PubAtOk (applyOp op db) := by
  cases op with
  | init =>
    cases db with
    | none => simp [applyOp, init_db, PubAtOk]
    | some s => exact h
  | track i n sd =>
    cases db with
    | none => exact h
    | some s =>
      rw [applyOp, track_new_file]
      by_cases hf : (findEntry i s).isSome
      · simp only [hf, if_true]
        exact h
      · simp only [hf, if_false, PubAtOk, Bool.false_eq_true]
        intro e he
        rcases List.mem_append.mp he with hs | hnew
        · exact h e hs
        · simp at hnew
          subst hnew
          rfl
  | mark i t =>
    cases db with
    | none => exact h
    | some s =>
      rw [applyOp, mark_as_published]
      intro e he
      obtain ⟨a, ha, rfl⟩ := List.mem_map.mp he
      unfold markRow
      split
      · rfl
      · exact h a ha

theorem PubAtOk_runOps (ops : List Op) (db : Db) (h : PubAtOk db) :
    PubAtOk (runOps ops db) := by
  induction ops generalizing db with
  | nil => exact h
  | cons op rest ih => exact ih _ (PubAtOk_applyOp op db h)

/-! ## Claims -/

/-- C1 (counterexample): the claim states that `isProcessed(file_id)`
returns true after `markPublished(file_id)` has been called.  This fails
for an id that was never tracked: `mark_as_published` is an `UPDATE` that
creates no row, so after initializing the store and calling
`markPublished("f1")` on it, `isProcessed("f1")` is still false. -/
theorem isProcessed_after_mark_counterexample :
    is_file_processed "f1" (runOps [Op.init, Op.mark "f1" 0] none) = false := rfl

/-- C1 (amended): for every file id, (1) `isProcessed` is false as long as
no `markPublished` for that id has occurred; (2) calling `markPublished`
for an id **present in the ledger** makes `isProcessed` true; (3) once
true it stays true permanently under any further sequence of ledger
operations; (4) a second `markPublished` for the same id does not change
the result of `isProcessed` (and, the operations being total, does not
error). -/
theorem isProcessed_markPublished_amended (id : String) :
    (∀ ops : List Op, (∀ t, Op.mark id t ∉ ops) →
        is_file_processed id (runOps ops none) = false)
  ∧ (∀ (s : List LedgerEntry) (t : Nat), (findEntry id s).isSome →
        is_file_processed id (mark_as_published id t (some s)) = true)
  ∧ (∀ (db : Db) (ops : List Op), is_file_processed id db = true →
        is_file_processed id (runOps ops db) = true)
  ∧ (∀ (db : Db) (t1 t2 : Nat),
        is_file_processed id (mark_as_published id t2 (mark_as_published id t1 db))
          = is_file_processed id (mark_as_published id t1 db)) := by
  refine ⟨?_, ?_, ?_, ?_⟩
  · intro ops hops
    exact is_file_processed_runOps_false id ops none hops rfl
  · intro s t hf
    rw [is_file_processed_mark_self]
    exact hf
  · intro db ops h
    exact is_file_processed_runOps_mono id ops db h
  · intro db t1 t2
    cases db with
    | none => rfl
    | some s =>
      have hX : mark_as_published id t1 (some s) = some (s.map (markRow id t1)) := rfl
      rw [hX, is_file_processed_mark_self, is_file_processed_some, findEntry_map_markRow]
      cases hf : findEntry id s with
      | none => simp
      | some e =>
        have hid : e.file_id = id := findEntry_eq_some_id hf
        simp [markRow, hid]

/-- C1 witness: concrete instances of the amended claim — marking a
tracked id makes it processed, and a history without a `mark` for the id
leaves it unprocessed. -/
theorem isProcessed_markPublished_amended_witness :
    is_file_processed "a" (mark_as_published "a" 7 (some [⟨"a", "n", none, false, none⟩])) = true
  ∧ is_file_processed "a" (runOps [Op.init, Op.track "a" "n" none] none) = false := by
  constructor
  · exact (isProcessed_markPublished_amended "a").2.1 [⟨"a", "n", none, false, none⟩] 7
      (by decide)
  · exact (isProcessed_markPublished_amended "a").1 [Op.init, Op.track "a" "n" none]
      (by intro t ht; simp at ht)

/-- C4: a second `track` for an existing `file_id` is a no-op
(`INSERT OR IGNORE`): the whole store is left exactly as after the first
call, whatever the second name and date are. -/
theorem track_twice_first_write_wins (db : Db) (id n1 n2 : String) (d1 d2 : Option Nat) :
    track_new_file id n2 d2 (track_new_file id n1 d1 db) = track_new_file id n1 d1 db := by
  cases db with
  | none => rfl
  | some s =>
    simp only [track_new_file]
    by_cases hf : (findEntry id s).isSome
    · simp [hf]
    · simp only [hf, if_false, Bool.false_eq_true]
      have hnone : findEntry id s = none := by
        cases hfe : findEntry id s
        · rfl
        · rw [hfe] at hf
          simp at hf
      have : (findEntry id (s ++ [⟨id, n1, d1, false, none⟩])).isSome := by
        rw [findEntry_append, hnone]
        simp [findEntry]
      simp [this]

/-- C5: in every store reachable from the empty store by `init_db`,
`track_new_file` and `mark_as_published` operations, every row satisfies
`published_at` non-null iff `published` true. -/
theorem published_at_iff_published (ops : List Op) (s : List LedgerEntry)
    (hs : runOps ops none = some s) :
    ∀ e ∈ s, e.published_at ≠ none ↔ e.published = true := by
  have h := PubAtOk_runOps ops none trivial
  rw [hs] at h
  simp only [PubAtOk] at h
  intro e he
  have h2 := h e he
  cases hpa : e.published_at <;> cases hpb : e.published <;>
    simp [hpa, hpb] at h2 ⊢

/-- C5 witness: the invariant evaluated on the row produced by tracking
and then publishing one file. -/
theorem published_at_iff_published_witness :
    ((⟨"a", "n", none, true, some 3⟩ : LedgerEntry).published_at ≠ none ↔
      (⟨"a", "n", none, true, some 3⟩ : LedgerEntry).published = true) :=
  published_at_iff_published [Op.init, Op.track "a" "n" none, Op.mark "a" 3]
    [⟨"a", "n", none, true, some 3⟩] (by decide) _ (List.mem_singleton.mpr rfl)

/-- C3: `get_pending_posts` returns `[]` on storage error; its result is
sorted ascending by `scheduled_date` with NULL dates first; it is exactly
(a permutation before sorting of) the rows with `published = false`; and
on any reachable store it never contains an id for which
`is_file_processed` is true. -/
theorem get_pending_posts_spec (ops : List Op) (s : List LedgerEntry) :
    get_pending_posts none = []
  ∧ List.Sorted rowLe (get_pending_posts (some s))
  ∧ (get_pending_posts (some s)).Perm ((s.filter fun e => !e.published).map entryRow)
  ∧ (runOps ops none = some s →
      ∀ p ∈ get_pending_posts (some s), is_file_processed p.1 (some s) = false) := by
  refine ⟨rfl, ?_, ?_, ?_⟩
  · have hs := List.sorted_insertionSort entryLe (s.filter fun e => !e.published)
    exact List.Pairwise.map entryRow (fun a b h => h) hs
  · exact (List.perm_insertionSort entryLe _).map entryRow
  · intro hreach p hp
    have hn : (s.map fun e => e.file_id).Nodup := by
      have h := IdsNodup_runOps ops none trivial
      rw [hreach] at h
      exact h
    simp only [get_pending_posts, List.mem_map] at hp
    obtain ⟨e, hes, rfl⟩ := hp
    have hef : e ∈ s.filter fun x => !x.published :=
      ((List.perm_insertionSort entryLe _).mem_iff).mp hes
    have hmem : e ∈ s := (List.mem_filter.mp hef).1
    have hpub : e.published = false := by
      have h2 := (List.mem_filter.mp hef).2
      simpa using h2
    show is_file_processed (entryRow e).1 (some s) = false
    have hfst : (entryRow e).1 = e.file_id := rfl
    rw [hfst, is_file_processed_some, findEntry_of_mem_nodup hn hmem]
    simp [hpub]

/-- C3 witness: on the reachable store holding one pending file, the
single pending row's id is indeed not processed. -/
theorem get_pending_posts_spec_witness :
    is_file_processed "a" (some [⟨"a", "n", none, false, none⟩]) = false :=
  (get_pending_posts_spec [Op.init, Op.track "a" "n" none]
      [⟨"a", "n", none, false, none⟩]).2.2.2 (by decide) ("a", "n", none) (by decide)

/-- C7: a file whose id is already marked published is skipped by
`run_once` in any mode: only a "skipped" status line is emitted for it —
no ledger write, no `process_file` invocation (hence no enrichment or
Publisher call) — and processing moves on to the remaining files exactly
as if the file were absent. -/
theorem run_once_skips_processed
    (proc : String → String → Option Nat → Except PyErr Bool) (schedule : Bool)
    (now offMin : Nat) (f : DriveFile) (rest : List DriveFile) (db : Db)
    (h : is_file_processed f.id (init_db db) = true) :
    run_once db (.ok ()) (f :: rest) schedule now offMin proc
      = ((runLoop proc schedule now offMin rest (init_db db)).1,
         Event.listFiles :: Event.skipped f.id
           :: (runLoop proc schedule now offMin rest (init_db db)).2) := by
  simp [run_once, runLoop, h]

/-- C7 witness: a one-file run over a store where the file is already
published performs no writes and only reports the skip. -/
theorem run_once_skips_processed_witness :
    run_once (some [⟨"a", "n", none, true, some 1⟩]) (.ok ()) [⟨"a", "n"⟩] false 0 5
        (fun _ _ _ => .ok false)
      = (some [⟨"a", "n", none, true, some 1⟩], [Event.listFiles, Event.skipped "a"]) := by
  rw [run_once_skips_processed (fun _ _ _ => .ok false) false 0 5 ⟨"a", "n"⟩ []
      (some [⟨"a", "n", none, true, some 1⟩]) (by decide)]
  decide

/-- C8: an exception raised while processing one file (any collaborator
behaviour, modelled by `proc` returning `.error`) is caught and logged
with the file name, the ledger is unchanged by that file, and the
remaining files are processed exactly as they would have been; moreover a
run in which every file fails leaves the store untouched and still
completes normally — no exception propagates to the caller. -/
theorem run_once_isolates_failures
    (proc : String → String → Option Nat → Except PyErr Bool) (schedule : Bool)
    (now offMin : Nat) (f : DriveFile) (rest files : List DriveFile)
    (db db2 : Db) (e e2 : PyErr)
    (h1 : is_file_processed f.id (init_db db) = false)
    (h2 : proc f.id f.name (if schedule then some (now + offMin * 60) else none)
            = .error e) :
    run_once db (.ok ()) (f :: rest) schedule now offMin proc
      = ((runLoop proc schedule now offMin rest (init_db db)).1,
         Event.listFiles
           :: Event.procStart f.id (if schedule then some (now + offMin * 60) else none)
           :: Event.fileError f.name
           :: (runLoop proc schedule now offMin rest (init_db db)).2)
  ∧ (runLoop (fun _ _ _ => .error e2) schedule now offMin files db2).1 = db2 := by
  constructor
  · simp [run_once, runLoop, h1, h2]
  · induction files generalizing db2 with
    | nil => rfl
    | cons g t ih =>
      by_cases hg : is_file_processed g.id db2 = true <;> simp [runLoop, hg, ih]

/-- C8 witness: a run whose only file raises ends normally with the
store unchanged and the error logged. -/
theorem run_once_isolates_failures_witness :
    run_once (some []) (.ok ()) [⟨"a", "n"⟩] false 0 5 (fun _ _ _ => .error (.other "boom"))
      = (some [], [Event.listFiles, Event.procStart "a" none, Event.fileError "n"]) := by
  rw [(run_once_isolates_failures (fun _ _ _ => .error (.other "boom")) false 0 5
      ⟨"a", "n"⟩ [] [] (some []) (some []) (.other "boom") (.other "boom")
      (by decide) rfl).1]
  decide

/-- C9 (counterexample): the claim that a successfully published
immediate-mode file **always** has a non-null `scheduled_date` fails for
a file that was already tracked with a null date (queue mode does exactly
`track(file_id, file_name, None)`, so such a store is reachable — first
conjunct).  Running `run_once` in immediate mode over it with a
succeeding `process_file` does call `track` with `some 7` (the `trackW`
event), but `INSERT OR IGNORE` keeps the existing row, so the file ends
published with `scheduled_date = none`. -/
theorem immediate_null_schedule_counterexample :
    runOps [Op.init, Op.track "f2" "x.bin" none] none
      = some [⟨"f2", "x.bin", none, false, none⟩]
  ∧ run_once (some [⟨"f2", "x.bin", none, false, none⟩]) (.ok ()) [⟨"f2", "x.bin"⟩]
        false 7 5 (fun _ _ _ => .ok true)
      = (some [⟨"f2", "x.bin", none, true, some 7⟩],
         [Event.listFiles, Event.procStart "f2" none,
          Event.trackW "f2" "x.bin" (some 7), Event.markW "f2"])
  ∧ findEntry "f2" [⟨"f2", "x.bin", none, true, some 7⟩]
      = some ⟨"f2", "x.bin", none, true, some 7⟩ := by
  refine ⟨by decide, by decide, by decide⟩

/-- C9 (amended): in immediate mode (`schedule = false`), when
`process_file` succeeds for a file, `run_once` calls `track` with the
current UTC time — `some now`, not null — and then `mark_as_published`;
consequently, when the file was not already tracked, its ledger row ends
up with `scheduled_date = some now` (non-null) and `published = true`.
(A pre-existing row — e.g. queued earlier with a null date — keeps its
original `scheduled_date` under first-write-wins, which is what the
counterexample exhibits.) -/
theorem run_once_immediate_tracks_now
    (proc : String → String → Option Nat → Except PyErr Bool)
    (now offMin : Nat) (f : DriveFile) (rest : List DriveFile)
    (s : List LedgerEntry)
    (hnew : findEntry f.id s = none)
    (hok : proc f.id f.name none = .ok true) :
    run_once (some s) (.ok ()) (f :: rest) false now offMin proc
      = ((runLoop proc false now offMin rest
            (mark_as_published f.id now (track_new_file f.id f.name (some now) (some s)))).1,
         Event.listFiles
           :: Event.procStart f.id none
           :: Event.trackW f.id f.name (some now)
           :: Event.markW f.id
           :: (runLoop proc false now offMin rest
                (mark_as_published f.id now
                  (track_new_file f.id f.name (some now) (some s)))).2)
  ∧ ∃ s2, mark_as_published f.id now (track_new_file f.id f.name (some now) (some s))
        = some s2
      ∧ findEntry f.id s2 = some ⟨f.id, f.name, some now, true, some now⟩ := by
  have hproc : is_file_processed f.id (some s) = false := by
    rw [is_file_processed_some, hnew]
    rfl
  have htrack : track_new_file f.id f.name (some now) (some s)
      = some (s ++ [⟨f.id, f.name, some now, false, none⟩]) := by
    simp [track_new_file, hnew]
  constructor
  · simp [run_once, runLoop, hproc, hok, init_db]
  · rw [htrack]
    refine ⟨_, rfl, ?_⟩
    rw [findEntry_map_markRow, findEntry_append, hnew]
    simp [findEntry, markRow]

/-- C9 witness: publishing a fresh file at time 2 leaves a row with
`scheduled_date = some 2` and `published = true`. -/
theorem run_once_immediate_tracks_now_witness :
    run_once (some []) (.ok ()) [⟨"a", "n"⟩] false 2 5 (fun _ _ _ => .ok true)
      = (some [⟨"a", "n", some 2, true, some 2⟩],
         [Event.listFiles, Event.procStart "a" none,
          Event.trackW "a" "n" (some 2), Event.markW "a"]) := by
  rw [(run_once_immediate_tracks_now (fun _ _ _ => .ok true) 2 5 ⟨"a", "n"⟩ [] []
      rfl rfl).1]
  decide

/-- C10: when the content template cannot be read, `run_once` logs the
error and returns at once — the resulting store is exactly the one after
the idempotent `init_db`, and nothing else happens (no listing, no
per-file events, no other ledger writes). -/
theorem run_once_template_failure (db : Db) (files : List DriveFile)
    (schedule : Bool) (now offMin : Nat)
    (proc : String → String → Option Nat → Except PyErr Bool) (msg : String) :
    run_once db (.error msg) files schedule now offMin proc
      = (init_db db, [Event.templateErrorLog]) := rfl

/-- C6: when `publish_date` is strictly in the future, the submitted
payload has `status = "future"` and carries the date as `date_gmt`; when
the date is in the past (or equal to now) or absent, the payload keeps the
default `status = "publish"`; and `create_post` returns `none` rather than
raising on any remote failure (raised exception or non-2xx response). -/
theorem create_post_scheduling
    (apiBase : String) (remote : PostData → Except PyErr (Nat × String))
    (title content : String) (cats tags : Option (List Nat)) (fm : Option Nat)
    (status : String) (now d : Nat) (pd : Option Nat) :
    (now < d →
      (buildPostData title content cats tags fm (some d) status now).status = "future"
        ∧ (buildPostData title content cats tags fm (some d) status now).date_gmt = some d)
  ∧ (d ≤ now →
      (buildPostData title content cats tags fm (some d) "publish" now).status = "publish"
        ∧ (buildPostData title content cats tags fm (some d) "publish" now).date_gmt = some d)
  ∧ (buildPostData title content cats tags fm none "publish" now).status = "publish"
  ∧ (∀ e, remote (buildPostData title content cats tags fm pd status now) = .error e →
      create_post apiBase remote title content cats tags fm pd status now = none)
  ∧ (∀ code body,
      remote (buildPostData title content cats tags fm pd status now) = .ok (code, body) →
      code ≠ 200 → code ≠ 201 →
      create_post apiBase remote title content cats tags fm pd status now = none) := by
  refine ⟨?_, ?_, rfl, ?_, ?_⟩
  · intro h
    constructor <;> simp [buildPostData, format_date_for_wp, h]
  · intro h
    have hnl : ¬ now < d := Nat.not_lt.mpr h
    constructor <;> simp [buildPostData, format_date_for_wp, hnl]
  · intro e he
    unfold create_post wpPost
    by_cases hb : apiBase = "" <;> simp [hb, he]
  · intro code body hok h200 h201
    unfold create_post wpPost
    by_cases hb : apiBase = "" <;> simp [hb, hok, h200, h201]

/-- C6 witness: a date strictly after "now" yields a `"future"` payload,
and a raising remote makes `create_post` return `none`. -/
theorem create_post_scheduling_witness :
    (buildPostData "t" "c" none none none (some 5) "publish" 0).status = "future"
  ∧ create_post "" (fun _ => .error (.other "x")) "t" "c" none none none (some 5)
      "publish" 0 = none := by
  constructor
  · exact ((create_post_scheduling "" (fun _ => .error (.other "x")) "t" "c" none none
      none "publish" 0 5 (some 5)).1 (by decide)).1
  · exact (create_post_scheduling "" (fun _ => .error (.other "x")) "t" "c" none none
      none "publish" 0 5 (some 5)).2.2.2.1 (.other "x") rfl

/-- C2: the claimed scenario fails on the code.  For the file
`{id: "f1", name: "GPU-boardview-x.bin"}` in immediate mode with shortener
and text generation both raising, `runner.process_file` builds the
download link and the `"Download Boardview"` classification, but then
evaluates `f"{Config.WP_SITE_URL}/{Config.DEFAULT_BOARDVIEW_IMAGE_URL}"`
— and `main.Config` has no `DEFAULT_BOARDVIEW_IMAGE_URL` attribute, so an
`AttributeError` is raised (for **any** configuration value `cfg`).  The
exception is caught by `run_once`'s per-file handler: `create_post` is
never called (no `publishCall` in the trace), the file is logged as
failed, and `isProcessed("f1")` stays false — contradicting the claim
that the Publisher is still called and the file becomes processed. -/
theorem immediate_scenario_code_bug (cfg : MainConfig) :
    process_file cfg (.error (.other "timeout")) (.error (.other "timeout"))
        "f1" "GPU-boardview-x.bin" none
      = ([.shortenCall "https://drive.google.com/uc?id=f1&export=download",
          .descCall "GPU-boardview-x.bin", .metaCall "f1"],
         .error (.attributeError "DEFAULT_BOARDVIEW_IMAGE_URL"))
  ∧ run_once (some []) (.ok ()) [⟨"f1", "GPU-boardview-x.bin"⟩] false 0 5
        (fun i n sd => (process_file cfg (.error (.other "timeout"))
            (.error (.other "timeout")) i n sd).2)
      = (some [], [.listFiles, .procStart "f1" none,
          .fileError "GPU-boardview-x.bin"])
  ∧ is_file_processed "f1" (some []) = false := by
  have hpf : process_file cfg (.error (.other "timeout")) (.error (.other "timeout"))
      "f1" "GPU-boardview-x.bin" none
      = ([.shortenCall "https://drive.google.com/uc?id=f1&export=download",
          .descCall "GPU-boardview-x.bin", .metaCall "f1"],
         .error (.attributeError "DEFAULT_BOARDVIEW_IMAGE_URL")) := by
    have hbv : strContains (strLower "GPU-boardview-x.bin") "boardview" = true := by decide
    have happ : "https://drive.google.com/uc?id=" ++ "f1" ++ "&export=download"
        = "https://drive.google.com/uc?id=f1&export=download" := rfl
    simp only [process_file, hbv, happ, if_true]
  refine ⟨hpf, ?_, rfl⟩
  have hp2 : (process_file cfg (.error (.other "timeout")) (.error (.other "timeout"))
      "f1" "GPU-boardview-x.bin" none).2
      = .error (.attributeError "DEFAULT_BOARDVIEW_IMAGE_URL") := by
    rw [hpf]
  simp [run_once, runLoop, is_file_processed, findEntry, init_db, hp2]

end WordpressAutoPost
